import Mathlib

/-!
Shallow embedding of the Naki-Agent scoring and technical-analysis engines.

Numbers are modelled as exact rationals (`ℚ`); Python `None` becomes
`Option.none`; Python float truthiness (`if x:`) becomes `x ≠ 0` on the
rational payload.  The natural logarithm used by `numpy.log` / `math.log`
is kept abstract as a function parameter `log : ℚ → ℚ`, since no verified
property depends on its analytic values.  Python's built-in stable sort is
modelled by `List.insertionSort`, which is extensionally the unique stable
sort for a given key.
-/

/-! ## Generic list helpers (numpy / Python built-ins) -/

/-- Minimum of a list of rationals (`numpy.ndarray.min` / built-in `min`);
junk value `0` on the empty list, which never occurs at call sites. -/
def listMin : List ℚ → ℚ
  | [] => 0
  | x :: xs => xs.foldl min x

/-- Descending order relation on `ℚ`, used for `list.sort(reverse=True)`. -/
def descQ (a b : ℚ) : Prop := b ≤ a

instance : DecidableRel descQ := fun a b => inferInstanceAs (Decidable (b ≤ a))

instance : IsTotal ℚ descQ := ⟨fun a b => le_total b a⟩

instance : IsTrans ℚ descQ := ⟨fun _ _ _ h h2 => le_trans h2 h⟩

/-- Python `list.sort()` (ascending, stable). -/
def sortAscQ (l : List ℚ) : List ℚ := List.insertionSort (· ≤ ·) l

/-- Python `list.sort(reverse=True)` (descending, stable). -/
def sortDescQ (l : List ℚ) : List ℚ := List.insertionSort descQ l

/-- `numpy.percentile(arr, 99)` with the default linear interpolation:
sort ascending, take position `0.99 * (n - 1)` and interpolate between the
neighbouring entries.  Junk value `0` on the empty list (numpy raises). -/
def percentile99 (l : List ℚ) : ℚ :=
  let a := sortAscQ l
  if a.length = 0 then 0
  else
    let pos : ℚ := (99 / 100) * ((a.length : ℚ) - 1)
    let i : ℕ := ⌊pos⌋.toNat
    let frac : ℚ := pos - (i : ℚ)
    a.getD i 0 + frac * (a.getD (i + 1) (a.getD i 0) - a.getD i 0)

/-- Round-half-to-even on rationals, the semantics of Python `round`. -/
def roundHalfEven (x : ℚ) : ℤ :=
  let f := ⌊x⌋
  let r := x - (f : ℚ)
  if r < 1 / 2 then f
  else if 1 / 2 < r then f + 1
  else if f % 2 = 0 then f else f + 1

/-- Python `round(x, 2)`. -/
def round2 (x : ℚ) : ℚ := (roundHalfEven (x * 100) : ℚ) / 100

/-! ## agents/utils/util.py -/

/-- `safe_ratio(agent, metric_key)` specialised to its two inputs: the
looked-up metric value (with dict default `0`) and the agent's market cap
(default `0`).  Returns `marketCap / value` when `value > 0`, else `None`. -/
def safe_ratio_mc (market_cap value : ℚ) : Option ℚ :=
  if value > 0 then some (market_cap / value) else none

/-- `compute_ratio_score(avg_ratio, agent_metric, market_cap)`.
The Python guard `if not (avg_ratio and agent_metric > 0 and market_cap > 0)`
treats `avg_ratio` as falsy when it is `None` or equals `0.0`. -/
def compute_ratio_score (avg_ratio : Option ℚ) (agent_metric market_cap : ℚ) :
    Option ℚ :=
  match avg_ratio with
  | none => none
  | some a =>
    if ¬(a ≠ 0 ∧ agent_metric > 0 ∧ market_cap > 0) then none
    else
      let agent_ratio := market_cap / agent_metric
      if agent_ratio ≤ 0 then none
      else some (a / agent_ratio)

/-- `robust_normalize(value, values_list)`: min–99th-percentile linear
rescaling with the value clipped from above at the 99th percentile. -/
def robust_normalize (value : ℚ) (values_list : List ℚ) : ℚ :=
  let min_val := listMin values_list
  let max_val := percentile99 values_list
  if max_val = min_val then 0
  else (min value max_val - min_val) / (max_val - min_val)

/-- `log_robust_normalize(value, values_list)`: the same rescaling in
log-space, over only the positive population entries; a non-positive
`value` maps to log-value `0`.  `log` abstracts `math.log`. -/
def log_robust_normalize (log : ℚ → ℚ) (value : ℚ) (values_list : List ℚ) :
    ℚ :=
  let log_values := (values_list.filter (fun v => decide (0 < v))).map log
  if log_values = [] then 0
  else
    let log_value := if value > 0 then log value else 0
    let min_val := listMin log_values
    let max_val := percentile99 log_values
    if max_val = min_val then 0
    else (min log_value max_val - min_val) / (max_val - min_val)

/-! ## Helper lemmas about `listMin` and `percentile99` -/

theorem foldl_min_le_init (xs : List ℚ) : ∀ x : ℚ, xs.foldl min x ≤ x := by
  induction xs with
  | nil => intro x; simp
  | cons y ys ih =>
    intro x
    calc (y :: ys).foldl min x = ys.foldl min (min x y) := rfl
    _ ≤ min x y := ih (min x y)
    _ ≤ x := min_le_left x y

theorem foldl_min_le_of_mem {xs : List ℚ} {y : ℚ} (h : y ∈ xs) :
    ∀ x : ℚ, xs.foldl min x ≤ y := by
  induction xs with
  | nil => cases h
  | cons z zs ih =>
    intro x
    rcases List.mem_cons.mp h with hz | hz
    · subst hz
      calc (y :: zs).foldl min x = zs.foldl min (min x y) := rfl
      _ ≤ min x y := foldl_min_le_init zs (min x y)
      _ ≤ y := min_le_right x y
    · calc (z :: zs).foldl min x = zs.foldl min (min x z) := rfl
      _ ≤ y := ih hz (min x z)

theorem listMin_le_of_mem {l : List ℚ} {y : ℚ} (h : y ∈ l) : listMin l ≤ y := by
  cases l with
  | nil => cases h
  | cons x xs =>
    rcases List.mem_cons.mp h with hx | hx
    · subst hx
      exact foldl_min_le_init xs y
    · exact foldl_min_le_of_mem hx x

theorem mem_sortAscQ {l : List ℚ} {x : ℚ} : x ∈ sortAscQ l ↔ x ∈ l :=
  List.mem_insertionSort (· ≤ ·)

theorem sortAscQ_sorted (l : List ℚ) : (sortAscQ l).Sorted (· ≤ ·) :=
  List.sorted_insertionSort (· ≤ ·) l

theorem length_sortAscQ (l : List ℚ) : (sortAscQ l).length = l.length :=
  List.length_insertionSort (· ≤ ·) l

theorem min_le_percentile99 {l : List ℚ} (h : l ≠ []) :
    listMin l ≤ percentile99 l := by
  have hlen : (sortAscQ l).length = l.length := length_sortAscQ l
  have hne : (sortAscQ l).length ≠ 0 := by
    rw [hlen]
    exact fun hc => h (List.length_eq_zero.mp hc)
  unfold percentile99
  simp only [hne, if_neg hne, if_false]
  set a := sortAscQ l with ha
  set pos : ℚ := (99 / 100) * ((a.length : ℚ) - 1) with hpos
  set i : ℕ := ⌊pos⌋.toNat with hi
  have hn1 : 1 ≤ a.length := Nat.one_le_iff_ne_zero.mpr hne
  have hpos_nonneg : 0 ≤ pos := by
    rw [hpos]
    have : (1 : ℚ) ≤ (a.length : ℚ) := by exact_mod_cast hn1
    have h1 : (0 : ℚ) ≤ (a.length : ℚ) - 1 := by linarith
    positivity
  have hfloor_le : (i : ℚ) ≤ pos := by
    have h0 : (0 : ℤ) ≤ ⌊pos⌋ := Int.floor_nonneg.mpr hpos_nonneg
    have hiz : (i : ℤ) = ⌊pos⌋ := by rw [hi]; exact Int.toNat_of_nonneg h0
    have hcast : ((i : ℕ) : ℚ) = ((⌊pos⌋ : ℤ) : ℚ) := by exact_mod_cast hiz
    rw [hcast]
    exact Int.floor_le pos
  have hfrac : 0 ≤ pos - (i : ℚ) := by linarith
  have hpos_lt : pos < (a.length : ℚ) := by
    rw [hpos]
    have h1 : (1 : ℚ) ≤ (a.length : ℚ) := by exact_mod_cast hn1
    nlinarith
  have hi_lt : i < a.length := by
    have : (i : ℚ) < (a.length : ℚ) := lt_of_le_of_lt hfloor_le hpos_lt
    exact_mod_cast this
  have hmem : a.getD i 0 ∈ l := by
    have : a.getD i 0 ∈ a := by
      rw [List.getD_eq_getElem _ _ hi_lt]
      exact List.getElem_mem hi_lt
    exact mem_sortAscQ.mp this
  have hmin : listMin l ≤ a.getD i 0 := listMin_le_of_mem hmem
  have hstep : a.getD i 0 ≤ a.getD (i + 1) (a.getD i 0) := by
    by_cases hi1 : i + 1 < a.length
    · rw [List.getD_eq_getElem _ _ hi_lt, List.getD_eq_getElem _ _ hi1]
      have hs := sortAscQ_sorted l
      rw [← ha] at hs
      exact List.Sorted.rel_get_of_lt hs (by simp)
    · rw [List.getD_eq_default _ _ (Nat.le_of_not_lt hi1)]
  nlinarith [mul_nonneg hfrac (sub_nonneg.mpr hstep)]

theorem percentile99_singleton (v : ℚ) : percentile99 [v] = v := by
  have hs : sortAscQ [v] = [v] := rfl
  unfold percentile99
  rw [hs]
  norm_num [List.getD]

theorem listMin_singleton (v : ℚ) : listMin [v] = v := rfl

/-! ## agents/tools/cookie.py — agent ranking engine -/

/-- The raw agent record fields the ranking engine reads
(`agent.get(key, default)`; a missing dict key is `none`). -/
structure Agent where
  mindshare : Option ℚ
  mindshareDeltaPercent : Option ℚ
  volume24HoursDeltaPercent : Option ℚ
  smartFollowersCount : Option ℚ
  holdersCount : Option ℚ
  marketCap : Option ℚ
deriving DecidableEq, Repr

/-- `safe_ratio(agent, metric_key)` for a field selector `metric`. -/
def safe_ratio (agent : Agent) (metric : Agent → Option ℚ) : Option ℚ :=
  safe_ratio_mc (agent.marketCap.getD 0) ((metric agent).getD 0)

/-- `sum(l) / len(l) if l else None`. -/
def avgOpt (l : List ℚ) : Option ℚ :=
  if l = [] then none else some (l.sum / (l.length : ℚ))

/-- `_compute_average_ratios(agents)`. -/
def compute_average_ratios (agents : List Agent) :
    Option ℚ × Option ℚ × Option ℚ :=
  (avgOpt (agents.filterMap (fun a => safe_ratio a Agent.mindshare)),
   avgOpt (agents.filterMap (fun a => safe_ratio a Agent.smartFollowersCount)),
   avgOpt (agents.filterMap (fun a => safe_ratio a Agent.holdersCount)))

/-- An agent record after `_compute_raw_scores` has attached its fields. -/
structure RawAgent where
  base : Agent
  ms_ratio_score : ℚ
  sf_ratio_score : ℚ
  hc_ratio_score : ℚ
  score_delta : ℚ
  pe_adjustment_score : ℚ
  raw_final_score : ℚ
deriving DecidableEq, Repr

/-- The per-agent body of `_compute_raw_scores`. -/
def compute_raw_score_one (avg_mindshare_ratio avg_smart_followers_ratio
    avg_holders_ratio : Option ℚ) (agent : Agent) : RawAgent :=
  let delta_ms := agent.mindshareDeltaPercent.getD 0
  let delta_vol := agent.volume24HoursDeltaPercent.getD 0
  let score_delta := delta_ms + delta_vol
  let market_cap := agent.marketCap.getD 0
  let ms_score := compute_ratio_score avg_mindshare_ratio (agent.mindshare.getD 0) market_cap
  let sf_score := compute_ratio_score avg_smart_followers_ratio (agent.smartFollowersCount.getD 0) market_cap
  let hc_score := compute_ratio_score avg_holders_ratio (agent.holdersCount.getD 0) market_cap
  let available_scores := [ms_score, sf_score, hc_score].filterMap id
  let pe_adjustment_score :=
    if available_scores = [] then 0
    else available_scores.sum / (available_scores.length : ℚ)
  { base := agent
    ms_ratio_score := ms_score.getD 0
    sf_ratio_score := sf_score.getD 0
    hc_ratio_score := hc_score.getD 0
    score_delta := score_delta
    pe_adjustment_score := pe_adjustment_score
    raw_final_score := score_delta + pe_adjustment_score }

/-- `_compute_raw_scores(agents, ...)` (in-place mutation modelled as a map). -/
def compute_raw_scores (avg_mindshare_ratio avg_smart_followers_ratio
    avg_holders_ratio : Option ℚ) (agents : List Agent) : List RawAgent :=
  agents.map (compute_raw_score_one avg_mindshare_ratio
    avg_smart_followers_ratio avg_holders_ratio)

/-- An agent record after `_normalize_agent_scores` has attached its fields. -/
structure ScoredAgent where
  base : Agent
  ms_ratio_score : ℚ
  sf_ratio_score : ℚ
  hc_ratio_score : ℚ
  norm_mindshareDeltaPercent : ℚ
  norm_volume24HoursDeltaPercent : ℚ
  norm_ms_ratio_score : ℚ
  norm_sf_ratio_score : ℚ
  norm_hc_ratio_score : ℚ
  finalScore : ℚ
deriving DecidableEq, Repr

/-- The per-agent body of the `_normalize_agent_scores` loop, given the six
population-wide vectors. -/
def normalize_agent_one (log : ℚ → ℚ)
    (mindshare_deltas volume_deltas ms_scores sf_scores hc_scores
     market_caps_log : List ℚ) (a : RawAgent) : ScoredAgent :=
  let norm_mindshare := robust_normalize (a.base.mindshareDeltaPercent.getD 0) mindshare_deltas
  let norm_volume := robust_normalize (a.base.volume24HoursDeltaPercent.getD 0) volume_deltas
  let norm_ms := log_robust_normalize log a.ms_ratio_score ms_scores
  let norm_sf := log_robust_normalize log a.sf_ratio_score sf_scores
  let norm_hc := log_robust_normalize log a.hc_ratio_score hc_scores
  let agent_market_cap_log := log (a.base.marketCap.getD 1)
  let norm_market_cap := robust_normalize agent_market_cap_log market_caps_log * (2 / 10)
  let tech_score := (norm_mindshare + norm_volume * (3 / 10) + norm_ms
    + norm_sf * (5 / 10) + norm_hc * (2 / 10) + norm_market_cap) / 3
  { base := a.base
    ms_ratio_score := a.ms_ratio_score
    sf_ratio_score := a.sf_ratio_score
    hc_ratio_score := a.hc_ratio_score
    norm_mindshareDeltaPercent := norm_mindshare
    norm_volume24HoursDeltaPercent := norm_volume
    norm_ms_ratio_score := norm_ms
    norm_sf_ratio_score := norm_sf
    norm_hc_ratio_score := norm_hc
    finalScore := tech_score }

/-- `_normalize_agent_scores(agents)`: builds the six batch-wide vectors and
normalizes every agent against them. -/
def normalize_agent_scores (log : ℚ → ℚ) (agents : List RawAgent) :
    List ScoredAgent :=
  let mindshare_deltas := agents.map (fun a => a.base.mindshareDeltaPercent.getD 0)
  let volume_deltas := agents.map (fun a => a.base.volume24HoursDeltaPercent.getD 0)
  let ms_scores := agents.map (fun a => a.ms_ratio_score)
  let sf_scores := agents.map (fun a => a.sf_ratio_score)
  let hc_scores := agents.map (fun a => a.hc_ratio_score)
  let market_caps_log := agents.map (fun a => log (a.base.marketCap.getD 1))
  agents.map (normalize_agent_one log mindshare_deltas volume_deltas ms_scores
    sf_scores hc_scores market_caps_log)

/-- Descending-by-`finalScore` relation used by
`sorted(agents, key=..., reverse=True)`. -/
def scoreRel (a b : ScoredAgent) : Prop := b.finalScore ≤ a.finalScore

instance : DecidableRel scoreRel :=
  fun a b => inferInstanceAs (Decidable (b.finalScore ≤ a.finalScore))

instance : IsTotal ScoredAgent scoreRel :=
  ⟨fun a b => le_total b.finalScore a.finalScore⟩

instance : IsTrans ScoredAgent scoreRel :=
  ⟨fun _ _ _ h h2 => le_trans h2 h⟩

/-- The market-cap filter of `get_top_agents`. -/
def capFilter (a : Agent) : Bool := decide (100000 < a.marketCap.getD 0)

/-- The scoring pipeline of `get_top_agents` before sorting: filter, average
ratios, raw scores, normalization. -/
def scored_agents (log : ℚ → ℚ) (agents : List Agent) : List ScoredAgent :=
  let agents := agents.filter capFilter
  let avgs := compute_average_ratios agents
  normalize_agent_scores log (compute_raw_scores avgs.1 avgs.2.1 avgs.2.2 agents)

/-- `get_top_agents(interval, k)` with the fetched batch supplied as input
(`get_all_agents` is an HTTP collaborator). -/
def get_top_agents (log : ℚ → ℚ) (agents : List Agent) (k : ℕ) :
    List ScoredAgent :=
  if agents = [] then []
  else (List.insertionSort scoreRel (scored_agents log agents)).take k

/-! ## analysis/ta.py — technical signal engine -/

/-- The index range of the swing scan loop,
`range(max(1, len(highs) - window), len(highs) - 1)`. -/
def swingIdxs (n window : ℕ) : List ℕ :=
  List.range' (max 1 (n - window)) ((n - 1) - max 1 (n - window))

/-- The `local_highs.append` collection of the swing scan loop. -/
def collect_highs (highs : List ℚ) (idxs : List ℕ) : List ℚ :=
  idxs.filterMap fun i =>
    if highs.getD (i - 1) 0 < highs.getD i 0 ∧ highs.getD (i + 1) 0 < highs.getD i 0
    then some (highs.getD i 0) else none

/-- The `local_lows.append` collection of the swing scan loop. -/
def collect_lows (lows : List ℚ) (idxs : List ℕ) : List ℚ :=
  idxs.filterMap fun i =>
    if lows.getD i 0 < lows.getD (i - 1) 0 ∧ lows.getD i 0 < lows.getD (i + 1) 0
    then some (lows.getD i 0) else none

/-- `_find_swing_highs_lows(highs, lows, window)`: collect strictly-confirmed
local highs/lows over indices `max(1, n - window) .. n - 2` (Python
`range(start_idx, end_idx)`), then sort highs descending and lows
ascending.  Out-of-range array accesses cannot occur in the source
(indices stay within `1 .. n - 2`); `getD` keeps the embedding total. -/
def find_swing_highs_lows (highs lows : List ℚ) (window : ℕ) :
    List ℚ × List ℚ :=
  (sortDescQ (collect_highs highs (swingIdxs highs.length window)),
   sortAscQ (collect_lows lows (swingIdxs highs.length window)))

/-- Last value of `talib.SMA(closes, timeperiod)` for a series of length at
least `timeperiod`: the mean of the last `timeperiod` closes. -/
def sma_last (closes : List ℚ) (timeperiod : ℕ) : ℚ :=
  (closes.drop (closes.length - timeperiod)).sum / (timeperiod : ℚ)

/-- `_process_fourh_data(closes, highs, lows, lookback_for_swing)`:
`ValueError` on short input becomes `Except.error`. -/
def process_fourh_data (closes highs lows : List ℚ) (lookback_for_swing : ℕ) :
    Except String (String × (ℚ × ℚ) × List ℚ × List ℚ) :=
  if closes.length < 200 then
    .error "Not enough 4-hour data to compute SMA200 for mid-term trend."
  else
    let last_sma50 := sma_last closes 50
    let last_sma200 := sma_last closes 200
    let mid_trend := if last_sma200 < last_sma50 then "bullish" else "bearish"
    let swings := find_swing_highs_lows highs lows lookback_for_swing
    .ok (mid_trend, (last_sma50, last_sma200), swings.1, swings.2)

/-- `_process_oneh_data(closes)`.  The final RSI(14) and MACD(12,26,9)
readings are external TA-Lib computations, abstracted as the function
parameters `rsiF` and `macdF` (macd value, signal, histogram); the
length guard is the repository's own code. -/
def process_oneh_data (rsiF : List ℚ → ℚ) (macdF : List ℚ → ℚ × ℚ × ℚ)
    (closes : List ℚ) : Except String (ℚ × (ℚ × ℚ × ℚ)) :=
  if closes.length < 26 then
    .error "Not enough 1-hour data to compute MACD(12,26)."
  else
    .ok (rsiF closes, macdF closes)

/-- `_build_score_and_recommendation(mid_trend, rsi_1h, macd_hist)`
(the reason strings are dropped; only score and recommendation are kept). -/
def build_score_and_recommendation (mid_trend : String) (rsi_1h macd_hist : ℚ) :
    ℤ × String :=
  let trend_score : ℤ := if mid_trend = "bullish" then 1 else -1
  let rsi_score : ℤ := if rsi_1h < 30 then 1 else if 70 < rsi_1h then -1 else 0
  let macd_score : ℤ := if 0 < macd_hist then 1 else -1
  let overall_score := trend_score + rsi_score + macd_score
  let recommendation :=
    if 2 ≤ overall_score then "LONG"
    else if overall_score ≤ -2 then "SHORT"
    else "NO_ACTION"
  (overall_score, recommendation)

/-- The `entry`/`stop_loss`/`take_profit` triple (each nullable). -/
structure Trade where
  entry : Option ℚ
  stop_loss : Option ℚ
  take_profit : Option ℚ
deriving DecidableEq, Repr

/-- `_suggest_trade(recommendation, local_highs, local_lows)` (reason
strings dropped).  `r1`/`r2` fall back to the constant `999999` and
`s1`/`s2` to `0`; Python float truthiness (`if s2`, `if tp`, ...)
becomes a `≠ 0` test. -/
def suggest_trade (recommendation : String) (local_highs local_lows : List ℚ) :
    Trade :=
  if local_highs = [] ∧ local_lows = [] then ⟨none, none, none⟩
  else
    let r1 := local_highs.getD 0 999999
    let r2 := local_highs.getD 1 999999
    let s1 := local_lows.getD 0 0
    let s2 := local_lows.getD 1 0
    if recommendation = "LONG" then
      let entry := s1
      let stop_loss := if s2 ≠ 0 then s2 * (98 / 100) else entry * (8 / 10)
      let tp0 := if entry < r1 then r1 else r2
      let tp := if tp0 ≠ 0 then tp0 else entry * (102 / 100)
      ⟨some entry, some stop_loss, some tp⟩
    else if recommendation = "SHORT" then
      let entry := r1
      let stop_loss := if r2 ≠ 0 then r2 * (102 / 100) else entry * (12 / 10)
      let tp0 := if s1 < entry then s1 else s2
      let tp := if tp0 ≠ 0 then tp0 else entry * (98 / 100)
      ⟨some entry, some stop_loss, some tp⟩
    else ⟨none, none, none⟩

/-- The final report dict of `_build_report` (reason strings dropped). -/
structure Report where
  recommendation : String
  overall_score : ℤ
  sma50_4h : ℚ
  sma200_4h : ℚ
  rsi_1h : ℚ
  macd_1h : ℚ
  macd_signal_1h : ℚ
  macd_hist_1h : ℚ
  local_highs : List ℚ
  local_lows : List ℚ
  suggested_trade : Trade
deriving DecidableEq, Repr

/-- `round(x, 2) if x else None` applied to a nullable trade field. -/
def report_trade_field (x : Option ℚ) : Option ℚ :=
  match x with
  | none => none
  | some v => if v = 0 then none else some (round2 v)

/-- `_build_report(...)`: rounds indicators, keeps the top-2 swing levels,
forces `NO_ACTION` when either top list is empty, and nullifies falsy
trade fields. -/
def build_report (recommendation : String) (overall_score : ℤ)
    (sma_vals : ℚ × ℚ) (rsi_1h : ℚ) (macd_1h_vals : ℚ × ℚ × ℚ)
    (local_highs local_lows : List ℚ) (suggested_trade : Trade) : Report :=
  let top_highs := (local_highs.take 2).map round2
  let top_lows := (local_lows.take 2).map round2
  let recommendation :=
    if top_highs = [] ∨ top_lows = [] then "NO_ACTION" else recommendation
  { recommendation := recommendation
    overall_score := overall_score
    sma50_4h := round2 sma_vals.1
    sma200_4h := round2 sma_vals.2
    rsi_1h := round2 rsi_1h
    macd_1h := round2 macd_1h_vals.1
    macd_signal_1h := round2 macd_1h_vals.2.1
    macd_hist_1h := round2 macd_1h_vals.2.2
    local_highs := top_highs
    local_lows := top_lows
    suggested_trade :=
      ⟨report_trade_field suggested_trade.entry,
       report_trade_field suggested_trade.stop_loss,
       report_trade_field suggested_trade.take_profit⟩ }

/-- Steps (3)–(5) of `comprehensive_ta_analysis`: score, suggest a trade,
build the report. -/
def signal_report (mid_trend : String) (rsi_1h : ℚ) (macd_1h_vals : ℚ × ℚ × ℚ)
    (sma_vals : ℚ × ℚ) (swing_highs swing_lows : List ℚ) : Report :=
  let sr := build_score_and_recommendation mid_trend rsi_1h macd_1h_vals.2.2
  let suggested_trade := suggest_trade sr.2 swing_highs swing_lows
  build_report sr.2 sr.1 sma_vals rsi_1h macd_1h_vals swing_highs swing_lows
    suggested_trade

/-- Result of `comprehensive_ta_analysis`: either the report dict or the
`{"error": str(e)}` JSON produced by the catch-all handler. -/
inductive TAOutput where
  | report (r : Report)
  | error (msg : String)
deriving DecidableEq, Repr

/-- `comprehensive_ta_analysis` over already-fetched-and-parsed OHLCV
arrays (fetching is an HTTP collaborator; `_parse_ohlcv` yields the
ascending-time arrays taken here as inputs).  The only exceptions raised
in the body are the two length guards; the surrounding `try/except`
turns them into the error output. -/
def comprehensive_ta_analysis (rsiF : List ℚ → ℚ)
    (macdF : List ℚ → ℚ × ℚ × ℚ) (fourh_high fourh_low fourh_close : List ℚ)
    (oneh_close : List ℚ) (lookback_for_swing : ℕ) : TAOutput :=
  match process_fourh_data fourh_close fourh_high fourh_low lookback_for_swing with
  | .error e => .error e
  | .ok (mid_trend, sma_vals, swing_highs, swing_lows) =>
    match process_oneh_data rsiF macdF oneh_close with
    | .error e => .error e
    | .ok (rsi_1h, macd_1h_vals) =>
      .report (signal_report mid_trend rsi_1h macd_1h_vals sma_vals
        swing_highs swing_lows)

/-! ## Claim theorems -/

/-- C8 counterexample: a defined but negative `avg_ratio` is truthy in the
Python guard, so `compute_ratio_score(-5, 2, 10)` returns `-1`, not
"undefined" as the claim states. -/
theorem c8_negative_avg_counterexample :
    compute_ratio_score (some (-5)) 2 10 = some (-1) ∧
    compute_ratio_score (some (-5)) 2 10 ≠ none := by
  constructor
  · with_unfolding_all rfl
  · intro h
    have h2 : compute_ratio_score (some (-5)) 2 10 = some (-1) := by
      with_unfolding_all rfl
    rw [h2] at h
    cases h

/-- C8 (amended): `compute_ratio_score` returns "undefined" unless
`avg_ratio` is defined and NONZERO, `agent_metric > 0` and
`market_cap > 0`; when the guard passes it returns
`avg_ratio / (market_cap / agent_metric)`. -/
theorem c8_ratio_score_guard (avg agent_metric market_cap : ℚ) :
    compute_ratio_score none agent_metric market_cap = none ∧
    (avg = 0 ∨ agent_metric ≤ 0 ∨ market_cap ≤ 0 →
      compute_ratio_score (some avg) agent_metric market_cap = none) ∧
    (avg ≠ 0 → 0 < agent_metric → 0 < market_cap →
      compute_ratio_score (some avg) agent_metric market_cap =
        some (avg / (market_cap / agent_metric))) := by
  refine ⟨rfl, ?_, ?_⟩
  · intro h
    have hc : ¬(avg ≠ 0 ∧ agent_metric > 0 ∧ market_cap > 0) := by
      rcases h with h | h | h
      · exact fun hg => hg.1 h
      · exact fun hg => absurd hg.2.1 (not_lt.mpr h)
      · exact fun hg => absurd hg.2.2 (not_lt.mpr h)
    simp only [compute_ratio_score, if_pos hc]
  · intro h1 h2 h3
    have hg : avg ≠ 0 ∧ agent_metric > 0 ∧ market_cap > 0 := ⟨h1, h2, h3⟩
    have hr : ¬(market_cap / agent_metric ≤ 0) := not_le.mpr (div_pos h3 h2)
    simp only [compute_ratio_score, if_neg (not_not.mpr hg), if_neg hr]

/-- Witness for C8's amended theorem at `avg = 1`, `metric = 2`, `cap = 10`. -/
theorem c8_ratio_score_guard_witness :
    compute_ratio_score (some 1) 2 10 = some (1 / (10 / 2)) :=
  (c8_ratio_score_guard 1 2 10).2.2 (by norm_num) (by norm_num) (by norm_num)

/-- C10: once the guard passes (`avg_ratio` defined and nonzero,
`agent_metric > 0`, `market_cap > 0`), `agent_ratio = market_cap /
agent_metric` is strictly positive, the `agent_ratio <= 0` branch is
unreachable, and the function returns `avg_ratio / agent_ratio`. -/
theorem c10_agent_ratio_positive (avg agent_metric market_cap : ℚ)
    (h1 : avg ≠ 0) (h2 : 0 < agent_metric) (h3 : 0 < market_cap) :
    0 < market_cap / agent_metric ∧
    ¬(market_cap / agent_metric ≤ 0) ∧
    compute_ratio_score (some avg) agent_metric market_cap =
      some (avg / (market_cap / agent_metric)) := by
  have hpos : 0 < market_cap / agent_metric := div_pos h3 h2
  refine ⟨hpos, not_le.mpr hpos, ?_⟩
  have hg : avg ≠ 0 ∧ agent_metric > 0 ∧ market_cap > 0 := ⟨h1, h2, h3⟩
  simp only [compute_ratio_score, if_neg (not_not.mpr hg),
    if_neg (not_le.mpr hpos)]

/-- Witness for C10 at `avg = 2`, `metric = 3`, `cap = 6`. -/
theorem c10_agent_ratio_positive_witness :
    0 < (6 : ℚ) / 3 ∧ ¬((6 : ℚ) / 3 ≤ 0) ∧
    compute_ratio_score (some 2) 3 6 = some (2 / (6 / 3)) :=
  c10_agent_ratio_positive 2 3 6 (by norm_num) (by norm_num) (by norm_num)

/-- C9 counterexample: a value strictly below the population minimum is not
clamped from below, so the result `-10/99` lies outside `[0, 1]`. -/
theorem c9_below_min_counterexample :
    robust_normalize (-10) [0, 100] = -10 / 99 ∧
    ¬(0 ≤ robust_normalize (-10) [0, 100]) := by
  have h : robust_normalize (-10) [0, 100] = -10 / 99 := by
    with_unfolding_all rfl
  refine ⟨h, ?_⟩
  rw [h]
  norm_num

/-- C9 (amended): `robust_normalize` returns 0 when the 99th percentile
equals the minimum (in particular on any single-element population);
otherwise it clamps the value from above at the percentile cap and
returns `(clamped - min) / (cap - min)`, which is always ≤ 1 and is
≥ 0 whenever the value is at least the population minimum. -/
theorem c9_robust_normalize_amended (v : ℚ) (l : List ℚ) (h : l ≠ []) :
    (percentile99 l = listMin l → robust_normalize v l = 0) ∧
    (∀ w : ℚ, robust_normalize v [w] = 0) ∧
    (percentile99 l ≠ listMin l →
      robust_normalize v l =
        (min v (percentile99 l) - listMin l) / (percentile99 l - listMin l) ∧
      robust_normalize v l ≤ 1 ∧
      (listMin l ≤ v → 0 ≤ robust_normalize v l)) := by
  refine ⟨?_, ?_, ?_⟩
  · intro he
    simp only [robust_normalize, if_pos he]
  · intro w
    have he : percentile99 [w] = listMin [w] := by
      rw [percentile99_singleton, listMin_singleton]
    simp only [robust_normalize, if_pos he]
  · intro hne
    have hle : listMin l ≤ percentile99 l := min_le_percentile99 h
    have hlt : listMin l < percentile99 l :=
      lt_of_le_of_ne hle (fun e => hne e.symm)
    have hden : 0 < percentile99 l - listMin l := sub_pos.mpr hlt
    have hval : robust_normalize v l =
        (min v (percentile99 l) - listMin l) / (percentile99 l - listMin l) := by
      simp only [robust_normalize, if_neg hne]
    refine ⟨hval, ?_, ?_⟩
    · rw [hval]
      rw [div_le_one hden]
      have := min_le_right v (percentile99 l)
      linarith
    · intro hv
      rw [hval]
      apply div_nonneg _ (le_of_lt hden)
      have := le_min hv hle
      linarith

/-- Witness for C9's amended theorem on the population `[0, 100]` with a
value inside the range. -/
theorem c9_robust_normalize_amended_witness :
    0 ≤ robust_normalize 50 [0, 100] ∧ robust_normalize 50 [0, 100] ≤ 1 := by
  have h := (c9_robust_normalize_amended 50 [0, 100] (by simp)).2.2
    (by with_unfolding_all decide)
  exact ⟨h.2.2 (by with_unfolding_all decide), h.2.1⟩

/-- C1 counterexample: for a LONG recommendation with `s2` absent the code
sets `stop_loss = entry * 0.8`, not `entry * 0.98` as the claim states:
with supports `[10]` and resistances `[20]` the stop-loss is `8`. -/
theorem c1_stop_loss_counterexample :
    suggest_trade "LONG" [20] [10] = ⟨some 10, some 8, some 20⟩ ∧
    (8 : ℚ) ≠ 10 * (98 / 100) := by
  constructor
  · with_unfolding_all rfl
  · norm_num

/-- C1 (amended): trade levels with the code's actual fallbacks.  Missing
`r1`/`r2` fall back to the constant `999999` and missing `s1`/`s2` to `0`
(not to the window extremes).  LONG: entry = s1, stop-loss = s2·0.98 when
s2 ≠ 0 and entry·0.8 otherwise, take-profit = r1 if r1 > entry else r2,
with entry·1.02 only when that choice is 0.  SHORT: entry = r1, stop-loss
= r2·1.02 when r2 ≠ 0 and entry·1.2 otherwise, take-profit = s1 if
s1 < entry else s2, with entry·0.98 only when that choice is 0. -/
theorem c1_suggest_trade_amended (local_highs local_lows : List ℚ)
    (h : ¬(local_highs = [] ∧ local_lows = [])) :
    suggest_trade "LONG" local_highs local_lows =
      { entry := some (local_lows.getD 0 0)
        stop_loss := some (if local_lows.getD 1 0 ≠ 0
          then local_lows.getD 1 0 * (98 / 100)
          else local_lows.getD 0 0 * (8 / 10))
        take_profit := some (
          if (if local_lows.getD 0 0 < local_highs.getD 0 999999
              then local_highs.getD 0 999999 else local_highs.getD 1 999999) ≠ 0
          then (if local_lows.getD 0 0 < local_highs.getD 0 999999
              then local_highs.getD 0 999999 else local_highs.getD 1 999999)
          else local_lows.getD 0 0 * (102 / 100)) } ∧
    suggest_trade "SHORT" local_highs local_lows =
      { entry := some (local_highs.getD 0 999999)
        stop_loss := some (if local_highs.getD 1 999999 ≠ 0
          then local_highs.getD 1 999999 * (102 / 100)
          else local_highs.getD 0 999999 * (12 / 10))
        take_profit := some (
          if (if local_lows.getD 0 0 < local_highs.getD 0 999999
              then local_lows.getD 0 0 else local_lows.getD 1 0) ≠ 0
          then (if local_lows.getD 0 0 < local_highs.getD 0 999999
              then local_lows.getD 0 0 else local_lows.getD 1 0)
          else local_highs.getD 0 999999 * (98 / 100)) } ∧
    suggest_trade "NO_ACTION" local_highs local_lows = ⟨none, none, none⟩ := by
  refine ⟨?_, ?_, ?_⟩ <;>
    simp only [suggest_trade, if_neg h] <;> rfl

/-- Witness for C1's amended theorem with two resistances and two
supports. -/
theorem c1_suggest_trade_amended_witness :
    suggest_trade "LONG" [40, 30] [10, 20] =
      ⟨some 10, some (20 * (98 / 100)), some 40⟩ := by
  have h := (c1_suggest_trade_amended [40, 30] [10, 20] (by simp)).1
  rw [h]
  norm_num

/-- C4: a long series shorter than 200 candles, or a short series shorter
than 26 candles, makes the respective processing step fail with the typed
length error, and the analysis as a whole yields the error output and no
report. -/
theorem c4_insufficient_data (rsiF : List ℚ → ℚ)
    (macdF : List ℚ → ℚ × ℚ × ℚ) (fourh_high fourh_low fourh_close : List ℚ)
    (oneh_close : List ℚ) (lookback : ℕ)
    (h : fourh_close.length < 200 ∨ oneh_close.length < 26) :
    (fourh_close.length < 200 →
      process_fourh_data fourh_close fourh_high fourh_low lookback =
        .error "Not enough 4-hour data to compute SMA200 for mid-term trend.") ∧
    (oneh_close.length < 26 →
      process_oneh_data rsiF macdF oneh_close =
        .error "Not enough 1-hour data to compute MACD(12,26).") ∧
    (∃ msg, comprehensive_ta_analysis rsiF macdF fourh_high fourh_low
        fourh_close oneh_close lookback = .error msg) ∧
    (∀ r, comprehensive_ta_analysis rsiF macdF fourh_high fourh_low
        fourh_close oneh_close lookback ≠ .report r) := by
  have herr : ∃ msg, comprehensive_ta_analysis rsiF macdF fourh_high fourh_low
      fourh_close oneh_close lookback = .error msg := by
    by_cases hf : fourh_close.length < 200
    · refine ⟨"Not enough 4-hour data to compute SMA200 for mid-term trend.", ?_⟩
      simp only [comprehensive_ta_analysis, process_fourh_data, if_pos hf]
    · have ho : oneh_close.length < 26 := h.resolve_left hf
      refine ⟨"Not enough 1-hour data to compute MACD(12,26).", ?_⟩
      simp only [comprehensive_ta_analysis, process_fourh_data, if_neg hf,
        process_oneh_data, if_pos ho]
  refine ⟨?_, ?_, herr, ?_⟩
  · intro hf
    simp only [process_fourh_data, if_pos hf]
  · intro ho
    simp only [process_oneh_data, if_pos ho]
  · intro r hr
    obtain ⟨msg, hmsg⟩ := herr
    rw [hmsg] at hr
    cases hr

/-- Witness for C4 on empty series. -/
theorem c4_insufficient_data_witness :
    ∃ msg, comprehensive_ta_analysis (fun _ => 0) (fun _ => (0, 0, 0))
      [] [] [] [] 50 = .error msg :=
  (c4_insufficient_data (fun _ => 0) (fun _ => (0, 0, 0)) [] [] [] [] 50
    (Or.inl (by simp))).2.2.1

/-- The report's recommendation field: `NO_ACTION` when either swing list is
empty, the incoming recommendation otherwise. -/
theorem build_report_rec_eq (recommendation : String) (overall_score : ℤ)
    (sma_vals : ℚ × ℚ) (rsi_1h : ℚ) (macd_1h_vals : ℚ × ℚ × ℚ)
    (local_highs local_lows : List ℚ) (suggested_trade : Trade) :
    (build_report recommendation overall_score sma_vals rsi_1h macd_1h_vals
      local_highs local_lows suggested_trade).recommendation =
      if local_highs = [] ∨ local_lows = [] then "NO_ACTION"
      else recommendation := by
  rcases eq_or_ne local_highs [] with hh | hh
  · subst hh
    simp [build_report]
  · rcases eq_or_ne local_lows [] with hl | hl
    · subst hl
      simp [build_report, hh]
    · simp [build_report, hh, hl, List.map_eq_nil_iff, List.take_eq_nil_iff]

/-- `_suggest_trade` on a `NO_ACTION` recommendation never fills any trade
field. -/
theorem suggest_trade_no_action (local_highs local_lows : List ℚ) :
    suggest_trade "NO_ACTION" local_highs local_lows = ⟨none, none, none⟩ := by
  by_cases h : local_highs = [] ∧ local_lows = []
  · simp only [suggest_trade, if_pos h]
  · simp only [suggest_trade, if_neg h]
    rfl

/-- C5 counterexample: with one local high and no local lows, the
score-derived recommendation LONG (score 3) is still overwritten by
NO_ACTION in the report, although one of the two swing lists is
non-empty — the forcing condition is an OR, not the claim's AND. -/
theorem c5_forced_no_action_counterexample :
    (build_score_and_recommendation "bullish" 25 1).2 = "LONG" ∧
    (signal_report "bullish" 25 (0, 0, 1) (0, 0) [20] []).recommendation =
      "NO_ACTION" := by
  constructor
  · with_unfolding_all rfl
  · with_unfolding_all rfl

/-- C5 (amended): the report's recommendation is forced to NO_ACTION
exactly when the swing-high list is empty OR the swing-low list is empty;
only when both lists are non-empty is the score-derived recommendation
preserved. -/
theorem c5_forced_no_action_amended (mid_trend : String) (rsi_1h : ℚ)
    (macd_1h_vals : ℚ × ℚ × ℚ) (sma_vals : ℚ × ℚ)
    (swing_highs swing_lows : List ℚ) :
    (swing_highs = [] ∨ swing_lows = [] →
      (signal_report mid_trend rsi_1h macd_1h_vals sma_vals swing_highs
        swing_lows).recommendation = "NO_ACTION") ∧
    (swing_highs ≠ [] → swing_lows ≠ [] →
      (signal_report mid_trend rsi_1h macd_1h_vals sma_vals swing_highs
        swing_lows).recommendation =
        (build_score_and_recommendation mid_trend rsi_1h
          macd_1h_vals.2.2).2) := by
  constructor
  · intro h
    unfold signal_report
    rw [build_report_rec_eq, if_pos h]
  · intro hh hl
    unfold signal_report
    rw [build_report_rec_eq, if_neg (by tauto)]

/-- Witness for C5's amended theorem: an empty swing-high list forces
NO_ACTION. -/
theorem c5_forced_no_action_amended_witness :
    (signal_report "bullish" 25 (0, 0, 1) (0, 0) [] [1]).recommendation =
      "NO_ACTION" :=
  (c5_forced_no_action_amended "bullish" 25 (0, 0, 1) (0, 0) [] [1]).1
    (Or.inl rfl)

/-- C6 counterexample: a report whose recommendation was forced to
NO_ACTION by an empty swing-low list still carries a non-null
take-profit. -/
theorem c6_no_action_nonnull_counterexample :
    (signal_report "bullish" 20 (0, 0, 2) (0, 0) [15] []).recommendation =
      "NO_ACTION" ∧
    (signal_report "bullish" 20 (0, 0, 2) (0, 0) [15]
      []).suggested_trade.take_profit = some 15 := by
  constructor
  · with_unfolding_all rfl
  · with_unfolding_all rfl

/-- C6 (amended): all three trade fields are null whenever the
score-derived recommendation is NO_ACTION, or both swing lists are empty;
the original claim fails only for reports whose NO_ACTION was forced by
exactly one empty swing list over a LONG/SHORT score. -/
theorem c6_no_action_null_trade_amended (mid_trend : String) (rsi_1h : ℚ)
    (macd_1h_vals : ℚ × ℚ × ℚ) (sma_vals : ℚ × ℚ)
    (swing_highs swing_lows : List ℚ)
    (h : (build_score_and_recommendation mid_trend rsi_1h
        macd_1h_vals.2.2).2 = "NO_ACTION" ∨
      (swing_highs = [] ∧ swing_lows = [])) :
    (signal_report mid_trend rsi_1h macd_1h_vals sma_vals swing_highs
      swing_lows).suggested_trade = ⟨none, none, none⟩ := by
  unfold signal_report
  have htrade : suggest_trade
      (build_score_and_recommendation mid_trend rsi_1h macd_1h_vals.2.2).2
      swing_highs swing_lows = ⟨none, none, none⟩ := by
    rcases h with h | h
    · rw [h]
      exact suggest_trade_no_action swing_highs swing_lows
    · simp only [suggest_trade, if_pos h]
  simp only [build_report, htrade]
  rfl

/-- Witness for C6's amended theorem at a neutral score. -/
theorem c6_no_action_null_trade_amended_witness :
    (signal_report "bearish" 50 (0, 0, 1) (0, 0) [5, 6]
      [1, 2]).suggested_trade = ⟨none, none, none⟩ :=
  c6_no_action_null_trade_amended "bearish" 50 (0, 0, 1) (0, 0) [5, 6] [1, 2]
    (Or.inl (by with_unfolding_all rfl))

/-- Membership in the collected local highs. -/
theorem mem_collect_highs {highs : List ℚ} {idxs : List ℕ} {x : ℚ} :
    x ∈ collect_highs highs idxs ↔
      ∃ i ∈ idxs,
        (highs.getD (i - 1) 0 < highs.getD i 0 ∧
         highs.getD (i + 1) 0 < highs.getD i 0) ∧ highs.getD i 0 = x := by
  unfold collect_highs
  rw [List.mem_filterMap]
  constructor
  · rintro ⟨i, hi, hf⟩
    by_cases hc : highs.getD (i - 1) 0 < highs.getD i 0 ∧
        highs.getD (i + 1) 0 < highs.getD i 0
    · rw [if_pos hc] at hf
      exact ⟨i, hi, hc, Option.some_injective _ hf⟩
    · rw [if_neg hc] at hf
      cases hf
  · rintro ⟨i, hi, hc, hx⟩
    exact ⟨i, hi, by rw [if_pos hc, hx]⟩

/-- Membership in the collected local lows. -/
theorem mem_collect_lows {lows : List ℚ} {idxs : List ℕ} {x : ℚ} :
    x ∈ collect_lows lows idxs ↔
      ∃ i ∈ idxs,
        (lows.getD i 0 < lows.getD (i - 1) 0 ∧
         lows.getD i 0 < lows.getD (i + 1) 0) ∧ lows.getD i 0 = x := by
  unfold collect_lows
  rw [List.mem_filterMap]
  constructor
  · rintro ⟨i, hi, hf⟩
    by_cases hc : lows.getD i 0 < lows.getD (i - 1) 0 ∧
        lows.getD i 0 < lows.getD (i + 1) 0
    · rw [if_pos hc] at hf
      exact ⟨i, hi, hc, Option.some_injective _ hf⟩
    · rw [if_neg hc] at hf
      cases hf
  · rintro ⟨i, hi, hc, hx⟩
    exact ⟨i, hi, by rw [if_pos hc, hx]⟩

/-- The scan range is `max(1, n - window) ≤ i < n - 1`. -/
theorem mem_swingIdxs {n window i : ℕ} :
    i ∈ swingIdxs n window ↔ max 1 (n - window) ≤ i ∧ i < n - 1 := by
  unfold swingIdxs
  rw [List.mem_range'_1]
  omega

/-- Modelled from the claim's words, for a refinement comparison with the
code: scan only the last `window` bars, excluding the very first and the
very last bar of that window, with the same local-extremum tests and sort
orders as `_find_swing_highs_lows`. -/
def find_swing_highs_lows_claim (highs lows : List ℚ) (window : ℕ) :
    List ℚ × List ℚ :=
  let wstart := highs.length - window
  let idxs := List.range' (wstart + 1) (window - 2)
  (sortDescQ (collect_highs highs idxs), sortAscQ (collect_lows lows idxs))

/-- C7 counterexample: with six bars and `window = 3`, the code's scan
includes the first bar of the window (index 3, whose left neighbour lies
outside the window) and finds the local high `50` there; the claim's scan
("excluding the very first bar of that window") finds nothing. -/
theorem c7_scan_range_counterexample :
    find_swing_highs_lows [10, 10, 10, 50, 20, 30] [0, 0, 0, 0, 0, 0] 3 =
      ([50], []) ∧
    find_swing_highs_lows_claim [10, 10, 10, 50, 20, 30] [0, 0, 0, 0, 0, 0] 3 =
      ([], []) ∧
    find_swing_highs_lows [10, 10, 10, 50, 20, 30] [0, 0, 0, 0, 0, 0] 3 ≠
      find_swing_highs_lows_claim [10, 10, 10, 50, 20, 30]
        [0, 0, 0, 0, 0, 0] 3 := by
  have h1 : find_swing_highs_lows [10, 10, 10, 50, 20, 30]
      [0, 0, 0, 0, 0, 0] 3 = ([50], []) := by with_unfolding_all rfl
  have h2 : find_swing_highs_lows_claim [10, 10, 10, 50, 20, 30]
      [0, 0, 0, 0, 0, 0] 3 = ([], []) := by with_unfolding_all rfl
  refine ⟨h1, h2, ?_⟩
  rw [h1, h2]
  simp

/-- C7 (amended): the scan covers exactly the indices
`max(1, n - window) ≤ i ≤ n - 2` — the window's first bar is scanned
whenever it is not the first bar of the series, with neighbours possibly
outside the window; a bar is collected as a local high iff its high
strictly exceeds both immediate neighbours' highs, as a local low iff its
low is strictly below both neighbours' lows; highs are returned sorted
descending and lows ascending. -/
theorem c7_swing_detection_amended (highs lows : List ℚ) (window : ℕ) :
    (find_swing_highs_lows highs lows window).1.Sorted descQ ∧
    (find_swing_highs_lows highs lows window).2.Sorted (· ≤ ·) ∧
    (∀ x : ℚ, x ∈ (find_swing_highs_lows highs lows window).1 ↔
      ∃ i : ℕ, (max 1 (highs.length - window) ≤ i ∧ i < highs.length - 1) ∧
        (highs.getD (i - 1) 0 < highs.getD i 0 ∧
         highs.getD (i + 1) 0 < highs.getD i 0) ∧ highs.getD i 0 = x) ∧
    (∀ x : ℚ, x ∈ (find_swing_highs_lows highs lows window).2 ↔
      ∃ i : ℕ, (max 1 (highs.length - window) ≤ i ∧ i < highs.length - 1) ∧
        (lows.getD i 0 < lows.getD (i - 1) 0 ∧
         lows.getD i 0 < lows.getD (i + 1) 0) ∧ lows.getD i 0 = x) := by
  refine ⟨List.sorted_insertionSort descQ _, List.sorted_insertionSort _ _,
    ?_, ?_⟩
  · intro x
    show x ∈ sortDescQ _ ↔ _
    rw [sortDescQ, List.mem_insertionSort, mem_collect_highs]
    constructor
    · rintro ⟨i, hi, hc, hx⟩
      exact ⟨i, mem_swingIdxs.mp hi, hc, hx⟩
    · rintro ⟨i, hi, hc, hx⟩
      exact ⟨i, mem_swingIdxs.mpr hi, hc, hx⟩
  · intro x
    show x ∈ sortAscQ _ ↔ _
    rw [sortAscQ, List.mem_insertionSort, mem_collect_lows]
    constructor
    · rintro ⟨i, hi, hc, hx⟩
      exact ⟨i, mem_swingIdxs.mp hi, hc, hx⟩
    · rintro ⟨i, hi, hc, hx⟩
      exact ⟨i, mem_swingIdxs.mpr hi, hc, hx⟩

/-- Witness for C7's amended theorem: the interior local high `3` of
`[1, 3, 2]` is found. -/
theorem c7_swing_detection_amended_witness :
    (3 : ℚ) ∈ (find_swing_highs_lows [1, 3, 2] [0, 0, 0] 3).1 :=
  ((c7_swing_detection_amended [1, 3, 2] [0, 0, 0] 3).2.2.1 3).mpr
    ⟨1, by norm_num, by with_unfolding_all decide, by with_unfolding_all rfl⟩

/-- Every agent surviving the scoring pipeline has `marketCap > 100000`. -/
theorem scored_agents_marketCap {log : ℚ → ℚ} {l : List Agent}
    {a : ScoredAgent} (h : a ∈ scored_agents log l) :
    100000 < a.base.marketCap.getD 0 := by
  unfold scored_agents normalize_agent_scores compute_raw_scores at h
  simp only [List.mem_map] at h
  obtain ⟨raw, ⟨b, hb, hraw⟩, hnorm⟩ := h
  have hbase : a.base = b := by
    rw [← hnorm, ← hraw]
    rfl
  rw [hbase]
  have := (List.mem_filter.mp hb).2
  simpa [capFilter] using this

/-- `get_top_agents` is the k-prefix of the stable descending sort of the
scoring pipeline's output. -/
theorem get_top_agents_eq (log : ℚ → ℚ) (l : List Agent) (k : ℕ) :
    get_top_agents log l k =
      (List.insertionSort scoreRel (scored_agents log l)).take k := by
  unfold get_top_agents
  by_cases h : l = []
  · subst h
    rw [if_pos rfl]
    have h0 : scored_agents log [] = [] := rfl
    rw [h0]
    simp
  · rw [if_neg h]

/-- Stability of the descending sort: restricting the sorted output to any
one score value gives exactly the input restricted to that value, in the
input's order. -/
theorem insertionSort_scoreRel_filter (l : List ScoredAgent) (q : ℚ) :
    (List.insertionSort scoreRel l).filter
        (fun a => decide (a.finalScore = q)) =
      l.filter (fun a => decide (a.finalScore = q)) := by
  have hperm : List.Perm
      ((List.insertionSort scoreRel l).filter
        (fun a => decide (a.finalScore = q)))
      (l.filter (fun a => decide (a.finalScore = q))) :=
    (List.perm_insertionSort scoreRel l).filter _
  have hpair : (l.filter
      (fun a => decide (a.finalScore = q))).Pairwise scoreRel := by
    apply List.pairwise_of_forall_mem_list
    intro a ha b hb
    have ha2 := (List.mem_filter.mp ha).2
    have hb2 := (List.mem_filter.mp hb).2
    simp only [decide_eq_true_eq] at ha2 hb2
    unfold scoreRel
    rw [ha2, hb2]
  have hsub : List.Sublist (l.filter (fun a => decide (a.finalScore = q)))
      (List.insertionSort scoreRel l) :=
    List.sublist_insertionSort hpair (List.filter_sublist l)
  have hsub2 : List.Sublist (l.filter (fun a => decide (a.finalScore = q)))
      ((List.insertionSort scoreRel l).filter
        (fun a => decide (a.finalScore = q))) := by
    have h2 := hsub.filter (fun a => decide (a.finalScore = q))
    have heq : (l.filter (fun a => decide (a.finalScore = q))).filter
        (fun a => decide (a.finalScore = q)) =
        l.filter (fun a => decide (a.finalScore = q)) := by
      rw [List.filter_filter]
      simp
    rwa [heq] at h2
  exact (hsub2.eq_of_length hperm.length_eq.symm).symm

/-- C2: `get_top_agents` drops agents with `marketCap ≤ 100000` before any
scoring (filtering first is a no-op, and every survivor exceeds the
threshold), returns the survivors sorted by non-increasing `finalScore`
with ties kept in input order (stability of the sort), returns at most
`k` of them, and maps empty or filtered-to-empty input to the empty
list. -/
theorem c2_rank_top_agents (log : ℚ → ℚ) (agents : List Agent) (k : ℕ) :
    get_top_agents log agents k =
      (List.insertionSort scoreRel (scored_agents log agents)).take k ∧
    get_top_agents log agents k =
      get_top_agents log (agents.filter capFilter) k ∧
    (get_top_agents log agents k).length ≤ k ∧
    (get_top_agents log agents k).Sorted scoreRel ∧
    (∀ a ∈ get_top_agents log agents k, 100000 < a.base.marketCap.getD 0) ∧
    (∀ q : ℚ,
      (List.insertionSort scoreRel (scored_agents log agents)).filter
          (fun a => decide (a.finalScore = q)) =
        (scored_agents log agents).filter
          (fun a => decide (a.finalScore = q))) ∧
    (agents.filter capFilter = [] → get_top_agents log agents k = []) := by
  have heq := get_top_agents_eq log agents k
  have hscored : scored_agents log (agents.filter capFilter) =
      scored_agents log agents := by
    unfold scored_agents
    rw [List.filter_filter]
    simp
  refine ⟨heq, ?_, ?_, ?_, ?_, fun q => insertionSort_scoreRel_filter _ q, ?_⟩
  · rw [heq, get_top_agents_eq, hscored]
  · rw [heq, List.length_take]
    exact min_le_left _ _
  · rw [heq]
    exact (List.sorted_insertionSort scoreRel _).sublist
      (List.take_sublist _ _)
  · intro a ha
    rw [heq] at ha
    have : a ∈ List.insertionSort scoreRel (scored_agents log agents) :=
      (List.take_sublist _ _).subset ha
    exact scored_agents_marketCap ((List.mem_insertionSort scoreRel).mp this)
  · intro h
    rw [heq, ← hscored]
    unfold scored_agents
    rw [h]
    simp

/-- Witness for C2 on the empty batch. -/
theorem c2_rank_top_agents_witness : get_top_agents (fun x => x) [] 3 = [] :=
  (c2_rank_top_agents (fun x => x) [] 3).2.2.2.2.2.2 rfl

/-- C3: normalization uses the six batch-wide vectors — linear robust
normalization for the two delta components and for log(marketCap) (the
market-cap term additionally scaled by 0.2), log robust normalization for
the three ratio scores — and
`finalScore = (normMindshare + normVolume*0.3 + normMsScore +
normSfScore*0.5 + normHcScore*0.2 + normMarketCap) / 3`, with `marketCap`
defaulting to `1` (log-value `0`) when missing. -/
theorem c3_normalization_formula (log : ℚ → ℚ) (hlog : log 1 = 0)
    (agents : List RawAgent) (msD volD msS sfS hcS capL : List ℚ)
    (a : RawAgent) :
    normalize_agent_scores log agents =
      agents.map (normalize_agent_one log
        (agents.map fun x => x.base.mindshareDeltaPercent.getD 0)
        (agents.map fun x => x.base.volume24HoursDeltaPercent.getD 0)
        (agents.map fun x => x.ms_ratio_score)
        (agents.map fun x => x.sf_ratio_score)
        (agents.map fun x => x.hc_ratio_score)
        (agents.map fun x => log (x.base.marketCap.getD 1))) ∧
    (normalize_agent_one log msD volD msS sfS hcS capL a).finalScore =
      (robust_normalize (a.base.mindshareDeltaPercent.getD 0) msD
       + robust_normalize (a.base.volume24HoursDeltaPercent.getD 0) volD
          * (3 / 10)
       + log_robust_normalize log a.ms_ratio_score msS
       + log_robust_normalize log a.sf_ratio_score sfS * (5 / 10)
       + log_robust_normalize log a.hc_ratio_score hcS * (2 / 10)
       + robust_normalize (log (a.base.marketCap.getD 1)) capL * (2 / 10))
      / 3 ∧
    (a.base.marketCap = none →
      robust_normalize (log (a.base.marketCap.getD 1)) capL =
        robust_normalize 0 capL) := by
  refine ⟨rfl, rfl, ?_⟩
  intro h
  simp [h, hlog]

/-- A fully-missing-fields agent record, used to witness C3. -/
def rawAgent0 : RawAgent :=
  ⟨⟨none, none, none, none, none, none⟩, 0, 0, 0, 0, 0, 0⟩

/-- Witness for C3: the missing-market-cap term normalizes the log-value
0. -/
theorem c3_normalization_formula_witness :
    robust_normalize ((fun _ : ℚ => (0 : ℚ)) (rawAgent0.base.marketCap.getD 1))
        [] = robust_normalize 0 [] :=
  (c3_normalization_formula (fun _ => 0) rfl [] [] [] [] [] [] []
    rawAgent0).2.2 rfl
